import Mathlib

/-!
Verification development for the TailorTalk appointment-booking core:
the natural-language date/time extraction engine
(`backend/advanced_date_parser.py`, `backend/date_time_parser.py`) and the
conversational slot-filling machinery
(`backend/enhanced_langgraph_agent.py`, `backend/enhanced_booking_agent.py`,
`backend/secure_user_agent.py`).

Modelling conventions:
* Python `re.search` is embedded by a small backtracking regex engine
  (`RE`, `reMatch`, `reSearch`) with Python semantics: leftmost match,
  greedy quantifiers, alternation tried left to right.
* Python `datetime.date` is the `Date` structure; `date(y, m, d)`
  (which raises `ValueError` on invalid input) is `mkDate : ... → Option Date`.
  `datetime.date` only supports years 1..9999.
* Resolver functions that may raise are embedded as `Option`-returning
  functions; a pattern loop that catches exceptions per rule and continues
  is `List.findSome?` over the ordered rule table.
* Confidence values (Python floats 0.0/0.6/0.7/0.9 and their means) are
  embedded exactly in hundredths, as naturals scaled by 100 (0.9 ↦ 90,
  0.6 ↦ 60, ...).  Every confidence operation the source performs — adding
  two of the constants and halving — lands on a multiple of 5 hundredths,
  so the scaled-integer arithmetic is exact; at these magnitudes the same
  operations are exact in IEEE double precision for every value a claim
  observes, so the observable comparisons agree with the Python floats.
* `dateutil.parser.parse(..., fuzzy=True)` is a third-party collaborator,
  not part of this repository; it is a parameter
  `fuzzy : String → Option Date` of the embedding (`none` = the call raised
  or produced nothing usable).  The source's post-filter
  "accept only if different from today" is kept explicit in the embedding.
* Wall-clock timestamps attached to history entries, and the exact prose of
  generated chat replies, are elided (the spec's non-goals): history entries
  keep role and content, and assistant replies produced by handlers are
  recorded as short content tags.
-/

namespace TailorTalk

/-! ## Gregorian dates (embedding of `datetime.date`) -/

structure Date where
  year : Nat
  month : Nat
  day : Nat
deriving DecidableEq, Repr

def isLeap (y : Nat) : Bool :=
  (y % 4 == 0 && y % 100 != 0) || y % 400 == 0

def daysInMonth (y m : Nat) : Nat :=
  if m = 2 then (if isLeap y then 29 else 28)
  else if m = 4 ∨ m = 6 ∨ m = 9 ∨ m = 11 then 30
  else 31

/-- `datetime.date(y, m, d)`: `some` iff the constructor would not raise
`ValueError` (years 1..9999, months 1..12, day within the month). -/
def mkDate (y m d : Nat) : Option Date :=
  if 1 ≤ y ∧ y ≤ 9999 ∧ 1 ≤ m ∧ m ≤ 12 ∧ 1 ≤ d ∧ d ≤ daysInMonth y m then
    some ⟨y, m, d⟩
  else none

/-- Python `date.__lt__` (chronological order, lexicographic on y/m/d). -/
def dateLt (a b : Date) : Bool :=
  a.year < b.year ||
    (a.year == b.year &&
      (a.month < b.month || (a.month == b.month && a.day < b.day)))

def nextDay (d : Date) : Date :=
  if d.day < daysInMonth d.year d.month then ⟨d.year, d.month, d.day + 1⟩
  else if d.month < 12 then ⟨d.year, d.month + 1, 1⟩
  else ⟨d.year + 1, 1, 1⟩

def prevDay (d : Date) : Date :=
  if 1 < d.day then ⟨d.year, d.month, d.day - 1⟩
  else if 1 < d.month then ⟨d.year, d.month - 1, daysInMonth d.year (d.month - 1)⟩
  else ⟨d.year - 1, 12, 31⟩

def addDays : Date → Nat → Date
  | d, 0 => d
  | d, n + 1 => addDays (nextDay d) n

def subDays : Date → Nat → Date
  | d, 0 => d
  | d, n + 1 => subDays (prevDay d) n

/-- `date + timedelta(days=n)`: raises `OverflowError` past year 9999. -/
def addDaysO (d : Date) (n : Nat) : Option Date :=
  let r := addDays d n
  if r.year ≤ 9999 then some r else none

/-- `date - timedelta(days=n)`: raises `OverflowError` before year 1. -/
def subDaysO (d : Date) (n : Nat) : Option Date :=
  let r := subDays d n
  if 1 ≤ r.year then some r else none

def daysBeforeMonth (y m : Nat) : Nat :=
  ((List.range (m - 1)).map (fun k => daysInMonth y (k + 1))).sum

/-- Proleptic-Gregorian day number with `rataDie ⟨1,1,1⟩ = 1`. -/
def rataDie (d : Date) : Nat :=
  365 * (d.year - 1) + (d.year - 1) / 4 - (d.year - 1) / 100 + (d.year - 1) / 400
    + daysBeforeMonth d.year d.month + d.day

/-- Python `date.weekday()`: Monday = 0 .. Sunday = 6
(0001-01-01 is a Monday in the proleptic Gregorian calendar). -/
def dateWeekday (d : Date) : Nat := (rataDie d + 6) % 7

/-- `dateutil.relativedelta(months=n)` added to a date: month arithmetic
with the day clamped to the target month's length; `ValueError` past 9999. -/
def addMonthsO (d : Date) (n : Nat) : Option Date :=
  let t := d.month - 1 + n
  let y := d.year + t / 12
  let m := t % 12 + 1
  if y ≤ 9999 then some ⟨y, m, min d.day (daysInMonth y m)⟩ else none

def padNat (w n : Nat) : String :=
  let s := toString n
  if s.length < w then String.mk (List.replicate (w - s.length) '0') ++ s else s

/-- `strftime('%Y-%m-%d')`. -/
def Date.toIso (d : Date) : String :=
  padNat 4 d.year ++ "-" ++ padNat 2 d.month ++ "-" ++ padNat 2 d.day

def monthNameFull (m : Nat) : String :=
  match m with
  | 1 => "January" | 2 => "February" | 3 => "March" | 4 => "April"
  | 5 => "May" | 6 => "June" | 7 => "July" | 8 => "August"
  | 9 => "September" | 10 => "October" | 11 => "November" | 12 => "December"
  | _ => ""

def weekdayNameFull (d : Date) : String :=
  match dateWeekday d with
  | 0 => "Monday" | 1 => "Tuesday" | 2 => "Wednesday" | 3 => "Thursday"
  | 4 => "Friday" | 5 => "Saturday" | _ => "Sunday"

/-- `strftime('%B %d, %Y')`. -/
def fmtLongDate (d : Date) : String :=
  monthNameFull d.month ++ " " ++ padNat 2 d.day ++ ", " ++ toString d.year

/-! ## Small string utilities -/

/-- Python `str.lower()` (ASCII; all inputs here are ASCII). -/
def strLower (s : String) : String :=
  String.mk (s.toList.map Char.toLower)

/-- Python `str.strip()`. -/
def strTrim (s : String) : String :=
  String.mk (((s.toList.dropWhile Char.isWhitespace).reverse.dropWhile
    Char.isWhitespace).reverse)

/-- Python `str.split(c)` for a single-character separator. -/
def splitOnChar (c : Char) : List Char → List (List Char)
  | [] => [[]]
  | x :: xs =>
    let r := splitOnChar c xs
    if x == c then [] :: r
    else
      match r with
      | [] => [[x]]
      | y :: ys => (x :: y) :: ys

/-- `int` applied to a known digit string (all call sites pass digit runs
captured by `\d` groups). -/
def toNat10 (s : String) : Nat :=
  s.toList.foldl (fun acc c => acc * 10 + (c.toNat - '0'.toNat)) 0

/-- `int(s)` for a string that must be entirely digits to succeed.
Used where the source wraps `int` in `try`/`except`. -/
def digitsToNat? (s : String) : Option Nat :=
  if s.length > 0 && s.toList.all Char.isDigit then some (toNat10 s) else none

/-- `strptime(s, '%Y-%m-%d').date()`. -/
def parseIso (s : String) : Option Date :=
  match splitOnChar '-' s.toList with
  | [ys, ms, ds] =>
    match digitsToNat? (String.mk ys), digitsToNat? (String.mk ms), digitsToNat? (String.mk ds) with
    | some y, some m, some d => mkDate y m d
    | _, _, _ => none
  | _ => none

/-- Python's `sub in s` substring test. -/
def containsSub (s sub : String) : Bool :=
  let sl := s.toList
  let bl := sub.toList
  (List.range (sl.length + 1)).any (fun i => (sl.drop i).take bl.length == bl)

/-! ## Regex engine: Python `re` semantics for the patterns used here

All quantified subexpressions in the source's patterns are character-class
repetitions (`\d{1,2}`, `\s*`, `\d+`, ...), so the engine supports exactly:
character classes, literals, sequencing, alternation (left first), greedy
optional, greedy bounded/unbounded class repetition, capturing groups and
word boundaries.  `reMatch` returns every way the pattern can match at a
position, most-preferred (greedy/leftmost-alternative) first, which is the
order Python's backtracking explores; `reSearch` takes the first position
with a match and that position's most-preferred candidate, exactly
`re.search`. -/

def isWordChar (c : Char) : Bool := c.isAlpha || c.isDigit || c == '_'

inductive RE where
  | cls (p : Char → Bool)
  | lit (w : List Char)
  | seq (a b : RE)
  | alt (a b : RE)
  | opt (r : RE)
  | rep (lo hi : Nat) (p : Char → Bool)
  | many0 (p : Char → Bool)
  | many1 (p : Char → Bool)
  | grp (n : Nat) (r : RE)
  | wb

abbrev Caps := List (Nat × List Char)

def countRun (p : Char → Bool) : List Char → Nat
  | [] => 0
  | c :: cs => if p c then countRun p cs + 1 else 0

def reMatch (s : List Char) : RE → Nat → List (Nat × Caps)
  | .cls p, i =>
    match s.get? i with
    | some c => if p c then [(i + 1, [])] else []
    | none => []
  | .lit w, i => if (s.drop i).take w.length == w then [(i + w.length, [])] else []
  | .seq a b, i =>
    (reMatch s a i).flatMap (fun jc =>
      (reMatch s b jc.1).map (fun kc => (kc.1, jc.2 ++ kc.2)))
  | .alt a b, i => reMatch s a i ++ reMatch s b i
  | .opt r, i => reMatch s r i ++ [(i, [])]
  | .rep lo hi p, i =>
    let run := min (countRun p (s.drop i)) hi
    if run < lo then []
    else (List.range (run + 1 - lo)).map (fun k => (i + (run - k), []))
  | .many0 p, i =>
    let run := countRun p (s.drop i)
    (List.range (run + 1)).map (fun k => (i + (run - k), []))
  | .many1 p, i =>
    let run := countRun p (s.drop i)
    if run = 0 then [] else (List.range run).map (fun k => (i + (run - k), []))
  | .grp n r, i =>
    (reMatch s r i).map (fun jc => (jc.1, jc.2 ++ [(n, (s.drop i).take (jc.1 - i))]))
  | .wb, i =>
    let bw := match (if i = 0 then none else s.get? (i - 1)) with
      | some c => isWordChar c
      | none => false
    let aw := match s.get? i with
      | some c => isWordChar c
      | none => false
    if bw != aw then [(i, [])] else []

structure RMatch where
  mstart : Nat
  mend : Nat
  caps : Caps
deriving DecidableEq, Repr

/-- `re.search` from a given start offset of the full string. -/
def reSearchGe (s : List Char) (re : RE) (start : Nat) : Option RMatch :=
  ((List.range (s.length + 1 - start)).map (fun k => start + k)).findSome?
    (fun i =>
      match reMatch s re i with
      | jc :: _ => some ⟨i, jc.1, jc.2⟩
      | [] => none)

/-- `re.search`. -/
def reSearch (s : List Char) (re : RE) : Option RMatch :=
  reSearchGe s re 0

/-- `match.group(n)` (`none` when the group did not participate). -/
def capGet (cs : Caps) (n : Nat) : Option String :=
  (cs.find? (fun x => x.1 == n)).map (fun x => String.mk x.2)

/-- `match.group(0)`. -/
def matchedText (s : List Char) (m : RMatch) : String :=
  String.mk ((s.drop m.mstart).take (m.mend - m.mstart))

/-- Alternation of literal words, left to right in the given (source) order. -/
def altWords : List String → RE
  | [] => .cls (fun _ => false)
  | [x] => .lit x.toList
  | x :: xs => .alt (.lit x.toList) (altWords xs)

def rseq : List RE → RE
  | [] => .lit []
  | [x] => x
  | x :: xs => .seq x (rseq xs)

/-- `re.sub(pattern, '', text)`: delete every non-overlapping leftmost
match, scanning the original string left to right. -/
def reSubEmptyAux (re : RE) (s : List Char) : Nat → Nat → List Char
  | 0, pos => s.drop pos
  | fuel + 1, pos =>
    match reSearchGe s re pos with
    | some m =>
      if pos < m.mend then
        ((s.drop pos).take (m.mstart - pos)) ++ reSubEmptyAux re s fuel m.mend
      else s.drop pos
    | none => s.drop pos

def reSubEmpty (re : RE) (s : List Char) : List Char :=
  reSubEmptyAux re s (s.length + 1) 0

/-! ## `backend/advanced_date_parser.py` — `AdvancedDateTimeParser`

The parser object captures `self.now = datetime.now(tz)` at construction;
of it only `self.now.date()` and `self.now.year` are used, plus
day-granularity `timedelta` arithmetic (the configured zone, Asia/Kolkata,
has no DST so adding whole days to the datetime moves the date by the same
number of days).  The embedding therefore takes `now : Date`. -/

/-- `self.months` of `AdvancedDateTimeParser` (dict; duplicate keys agree). -/
def advMonths : List (String × Nat) :=
  [("january", 1), ("february", 2), ("march", 3), ("april", 4),
   ("may", 5), ("june", 6), ("july", 7), ("august", 8),
   ("september", 9), ("october", 10), ("november", 11), ("december", 12),
   ("jan", 1), ("feb", 2), ("mar", 3), ("apr", 4), ("jun", 6),
   ("jul", 7), ("aug", 8), ("sep", 9), ("oct", 10), ("nov", 11), ("dec", 12),
   ("sept", 9), ("augus", 8)]

/-- `self.weekdays` of `AdvancedDateTimeParser`. -/
def advWeekdays : List (String × Nat) :=
  [("monday", 0), ("tuesday", 1), ("wednesday", 2), ("thursday", 3),
   ("friday", 4), ("saturday", 5), ("sunday", 6),
   ("mon", 0), ("tue", 1), ("wed", 2), ("thu", 3), ("fri", 4),
   ("sat", 5), ("sun", 6)]

/-- `d.get(key.lower())` on one of the tables above. -/
def tableGet (t : List (String × Nat)) (k : String) : Option Nat :=
  (t.find? (fun x => x.1 == strLower k)).map (fun x => x.2)

/-- `_parse_day_month`: "5th July".  If the date already passed this year,
use next year; if invalid this year (e.g. Feb 30), try next year, a second
failure propagating as an exception (`none`). -/
def parse_day_month (now : Date) (day month : String) : Option Date := do
  let day_num := toNat10 (String.mk (day.toList.filter Char.isDigit))
  let month_num ← tableGet advMonths month
  let current_year := now.year
  match mkDate current_year month_num day_num with
  | some target => if dateLt target now then mkDate (current_year + 1) month_num day_num else some target
  | none => mkDate (current_year + 1) month_num day_num

/-- `_parse_month_day`: "July 5th". -/
def parse_month_day (now : Date) (month day : String) : Option Date :=
  parse_day_month now day month

/-- `_parse_numeric_date`: "5/7", "5/7/2025"; tries DD/MM first, then MM/DD,
with next-year rollover when no explicit year was given. -/
def parse_numeric_date (now : Date) (part1 part2 : String) (year : Option String) : Option Date :=
  let day_num := toNat10 part1
  let month_num := toNat10 part2
  let year_num :=
    match year with
    | some ys => if ys.length = 2 then (if toNat10 ys < 50 then 2000 + toNat10 ys else 1900 + toNat10 ys) else toNat10 ys
    | none => now.year
  let ddmm : Option Date :=
    if month_num ≤ 12 then
      match mkDate year_num month_num day_num with
      | some t => if year.isNone && dateLt t now then mkDate (year_num + 1) month_num day_num else some t
      | none => none
    else none
  match ddmm with
  | some t => some t
  | none =>
    if day_num ≤ 12 then
      match mkDate year_num day_num month_num with
      | some t => if year.isNone && dateLt t now then mkDate (year_num + 1) day_num month_num else some t
      | none => none
    else none

/-- `_parse_iso_date`: "2025-07-05". -/
def parse_iso_date (y m d : String) : Option Date :=
  mkDate (toNat10 y) (toNat10 m) (toNat10 d)

/-- `_parse_in_days`. -/
def parse_in_days (now : Date) (days : String) : Option Date :=
  addDaysO now (toNat10 days)

/-- `_parse_in_weeks`. -/
def parse_in_weeks (now : Date) (weeks : String) : Option Date :=
  addDaysO now (7 * toNat10 weeks)

/-- `_parse_next_weekday`. -/
def parse_next_weekday (now : Date) (wd : String) : Option Date := do
  let wn ← tableGet advWeekdays wd
  let da : Int := (wn : Int) - (dateWeekday now : Int)
  let da := if da ≤ 0 then da + 7 else da
  addDaysO now da.toNat

/-- `_parse_this_weekday`. -/
def parse_this_weekday (now : Date) (wd : String) : Option Date := do
  let wn ← tableGet advWeekdays wd
  let da : Int := (wn : Int) - (dateWeekday now : Int)
  let da := if da < 0 then da + 7 else da
  addDaysO now da.toNat

/-- `_parse_upcoming_weekday`. -/
def parse_upcoming_weekday (now : Date) (wd : String) : Option Date :=
  parse_next_weekday now wd

/-- `self.ordinal_pattern`'s optional suffix `(?:st|nd|rd|th)?`. -/
def ordSuffix : RE := .opt (altWords ["st", "nd", "rd", "th"])

/-- Month-name alternation of the first two date patterns, in source order. -/
def advMonthAlt : List String :=
  ["january", "february", "march", "april", "may", "june", "july", "august",
   "september", "october", "november", "december", "jan", "feb", "mar",
   "apr", "may", "jun", "jul", "aug", "sep", "sept", "oct", "nov", "dec",
   "augus"]

/-- Weekday alternation of the weekday date patterns, in source order. -/
def advWeekdayAlt : List String :=
  ["monday", "tuesday", "wednesday", "thursday", "friday", "saturday",
   "sunday", "mon", "tue", "wed", "thu", "fri", "sat", "sun"]

def sepSlashDash (c : Char) : Bool := c == '/' || c == '-'

/-- `self.date_patterns`: the ordered `(regex, handler)` table (order
matters — most specific first; the first matching rule wins). -/
def advDatePatterns (now : Date) : List (RE × (Caps → Option Date)) :=
  [ -- r'\b(\d{1,2})(?:st|nd|rd|th)?\s+(january|...|augus)\b'
    (rseq [.wb, .grp 1 (.rep 1 2 Char.isDigit), ordSuffix,
           .many1 Char.isWhitespace, .grp 2 (altWords advMonthAlt), .wb],
     fun cs => do parse_day_month now (← capGet cs 1) (← capGet cs 2)),
    -- r'\b(january|...|augus)\s+(\d{1,2})(?:st|nd|rd|th)?\b'
    (rseq [.wb, .grp 1 (altWords advMonthAlt), .many1 Char.isWhitespace,
           .grp 2 (.rep 1 2 Char.isDigit), ordSuffix, .wb],
     fun cs => do parse_month_day now (← capGet cs 1) (← capGet cs 2)),
    -- r'\b(\d{1,2})[\/\-](\d{1,2})(?:[\/\-](\d{2,4}))?\b'
    (rseq [.wb, .grp 1 (.rep 1 2 Char.isDigit), .cls sepSlashDash,
           .grp 2 (.rep 1 2 Char.isDigit),
           .opt (rseq [.cls sepSlashDash, .grp 3 (.rep 2 4 Char.isDigit)]), .wb],
     fun cs => do parse_numeric_date now (← capGet cs 1) (← capGet cs 2) (capGet cs 3)),
    -- r'\b(\d{4})-(\d{1,2})-(\d{1,2})\b'
    (rseq [.wb, .grp 1 (.rep 4 4 Char.isDigit), .lit ['-'],
           .grp 2 (.rep 1 2 Char.isDigit), .lit ['-'],
           .grp 3 (.rep 1 2 Char.isDigit), .wb],
     fun cs => do parse_iso_date (← capGet cs 1) (← capGet cs 2) (← capGet cs 3)),
    -- r'\btoday\b' .. r'\bnext week\b'
    (rseq [.wb, .lit "today".toList, .wb], fun _ => some now),
    (rseq [.wb, .lit "tomorrow".toList, .wb], fun _ => addDaysO now 1),
    (rseq [.wb, .lit "yesterday".toList, .wb], fun _ => subDaysO now 1),
    (rseq [.wb, .lit "next week".toList, .wb], fun _ => addDaysO now 7),
    -- r'\bin (\d+) days?\b' and r'\bin (\d+) weeks?\b'
    (rseq [.wb, .lit "in ".toList, .grp 1 (.many1 Char.isDigit),
           .lit " day".toList, .opt (.lit ['s']), .wb],
     fun cs => do parse_in_days now (← capGet cs 1)),
    (rseq [.wb, .lit "in ".toList, .grp 1 (.many1 Char.isDigit),
           .lit " week".toList, .opt (.lit ['s']), .wb],
     fun cs => do parse_in_weeks now (← capGet cs 1)),
    -- weekday rules
    (rseq [.wb, .lit "next ".toList, .grp 1 (altWords advWeekdayAlt), .wb],
     fun cs => do parse_next_weekday now (← capGet cs 1)),
    (rseq [.wb, .lit "this ".toList, .grp 1 (altWords advWeekdayAlt), .wb],
     fun cs => do parse_this_weekday now (← capGet cs 1)),
    (rseq [.wb, .grp 1 (altWords advWeekdayAlt), .wb],
     fun cs => do parse_upcoming_weekday now (← capGet cs 1)) ]

/-- `_parse_12_hour_with_minutes`: "3:30pm". -/
def parse_12_hour_with_minutes (hour minute period : String) : Option String :=
  let hour_num := toNat10 hour
  let minute_num := toNat10 minute
  let hour_num :=
    if strLower period == "pm" && hour_num ≠ 12 then hour_num + 12
    else if strLower period == "am" && hour_num = 12 then 0
    else hour_num
  some (padNat 2 hour_num ++ ":" ++ padNat 2 minute_num)

/-- `_parse_12_hour_simple`: "3pm". -/
def parse_12_hour_simple (hour period : String) : Option String :=
  parse_12_hour_with_minutes hour "00" period

/-- `_parse_24_hour` (raises on out-of-range values). -/
def parse_24_hour (hour minute : String) : Option String :=
  let hour_num := toNat10 hour
  let minute_num := toNat10 minute
  if hour_num ≤ 23 && minute_num ≤ 59 then
    some (padNat 2 hour_num ++ ":" ++ padNat 2 minute_num)
  else none

/-- `_parse_military_time`: "1500". -/
def parse_military_time (time_str : String) : Option String :=
  if time_str.length = 4 then
    parse_24_hour (String.mk (time_str.toList.take 2)) (String.mk (time_str.toList.drop 2))
  else none

/-- `_parse_half_past`. -/
def parse_half_past (hour : String) : Option String :=
  some (padNat 2 (toNat10 hour) ++ ":30")

/-- `_parse_quarter_past`. -/
def parse_quarter_past (hour : String) : Option String :=
  some (padNat 2 (toNat10 hour) ++ ":15")

/-- `_parse_quarter_to` (`int(hour) - 1`, wrapping below 0 to 23). -/
def parse_quarter_to (hour : String) : Option String :=
  let hn := toNat10 hour
  let hour_num := if hn = 0 then 23 else hn - 1
  some (padNat 2 hour_num ++ ":45")

/-- `_is_valid_time`: splits on `:`, needs exactly two integer parts in
0..23 / 0..59 (any exception means invalid). -/
def is_valid_time (time_str : String) : Bool :=
  match splitOnChar ':' time_str.toList with
  | [hs, ms] =>
    match digitsToNat? (String.mk hs), digitsToNat? (String.mk ms) with
    | some h, some m => h ≤ 23 && m ≤ 59
    | _, _ => false
  | _ => false

/-- `self.time_patterns` (order matters — most specific first). -/
def advTimePatterns : List (RE × (Caps → Option String)) :=
  [ -- r'\b(\d{1,2}):(\d{2})\s*(am|pm)\b'
    (rseq [.wb, .grp 1 (.rep 1 2 Char.isDigit), .lit [':'],
           .grp 2 (.rep 2 2 Char.isDigit), .many0 Char.isWhitespace,
           .grp 3 (altWords ["am", "pm"]), .wb],
     fun cs => do parse_12_hour_with_minutes (← capGet cs 1) (← capGet cs 2) (← capGet cs 3)),
    -- r'\b(\d{1,2})\s*(am|pm)\b'
    (rseq [.wb, .grp 1 (.rep 1 2 Char.isDigit), .many0 Char.isWhitespace,
           .grp 2 (altWords ["am", "pm"]), .wb],
     fun cs => do parse_12_hour_simple (← capGet cs 1) (← capGet cs 2)),
    -- r'\b(\d{1,2}):(\d{2})\b'
    (rseq [.wb, .grp 1 (.rep 1 2 Char.isDigit), .lit [':'],
           .grp 2 (.rep 2 2 Char.isDigit), .wb],
     fun cs => do parse_24_hour (← capGet cs 1) (← capGet cs 2)),
    -- r'\b(\d{4})\s*(?:hours?|hrs?)?\b'
    (rseq [.wb, .grp 1 (.rep 4 4 Char.isDigit), .many0 Char.isWhitespace,
           .opt (.alt (rseq [.lit "hour".toList, .opt (.lit ['s'])])
                      (rseq [.lit "hr".toList, .opt (.lit ['s'])])), .wb],
     fun cs => do parse_military_time (← capGet cs 1)),
    (rseq [.wb, .lit "morning".toList, .wb], fun _ => some "09:00"),
    (rseq [.wb, .lit "afternoon".toList, .wb], fun _ => some "15:00"),
    (rseq [.wb, .lit "evening".toList, .wb], fun _ => some "18:00"),
    (rseq [.wb, .lit "night".toList, .wb], fun _ => some "20:00"),
    (rseq [.wb, .lit "midnight".toList, .wb], fun _ => some "00:00"),
    (rseq [.wb, .lit "noon".toList, .wb], fun _ => some "12:00"),
    (rseq [.wb, .lit "half past ".toList, .grp 1 (.rep 1 2 Char.isDigit), .wb],
     fun cs => do parse_half_past (← capGet cs 1)),
    (rseq [.wb, .lit "quarter past ".toList, .grp 1 (.rep 1 2 Char.isDigit), .wb],
     fun cs => do parse_quarter_past (← capGet cs 1)),
    (rseq [.wb, .lit "quarter to ".toList, .grp 1 (.rep 1 2 Char.isDigit), .wb],
     fun cs => do parse_quarter_to (← capGet cs 1)) ]

structure DateHit where
  date : String
  confidence : Nat
  matched_text : String
deriving DecidableEq, Repr

structure TimeHit where
  time : String
  confidence : Nat
  matched_text : String
deriving DecidableEq, Repr

/-- The rule loop of `_extract_date_precise`: first pattern that matches and
whose handler returns a date (exceptions caught per rule, continuing with
the next rule) wins, at confidence 0.9. -/
def tryDateRules (rules : List (RE × (Caps → Option Date))) (s : List Char) : Option DateHit :=
  rules.findSome? (fun rule =>
    match reSearch s rule.1 with
    | some m =>
      match rule.2 m.caps with
      | some d => some { date := d.toIso, confidence := 90, matched_text := matchedText s m }
      | none => none
    | none => none)

/-- The stop-word removal `re.sub(r'\b(book|appointment|meeting|schedule|on|at|for)\b', '', text)`
applied before the `dateutil` fallback. -/
def cleanForFuzzy (text : String) : String :=
  String.mk (reSubEmpty
    (rseq [.wb, .grp 1 (altWords ["book", "appointment", "meeting", "schedule", "on", "at", "for"]), .wb])
    text.toList)

/-- `_extract_date_precise`: ordered rules at confidence 0.9, then the
`dateutil` fuzzy fallback (external collaborator, passed as `fuzzy`) at
confidence 0.6, accepted only if it differs from today's date. -/
def extract_date_precise (now : Date) (fuzzy : String → Option Date) (text : String) : Option DateHit :=
  match tryDateRules (advDatePatterns now) text.toList with
  | some r => some r
  | none =>
    match fuzzy (cleanForFuzzy text) with
    | some d =>
      if d ≠ now then
        some { date := d.toIso, confidence := 60, matched_text := "fuzzy parsing" }
      else none
    | none => none

/-- `_extract_time_precise`: first pattern whose handler yields a string
passing `_is_valid_time` wins, at confidence 0.9. -/
def extract_time_precise (text : String) : Option TimeHit :=
  advTimePatterns.findSome? (fun rule =>
    match reSearch text.toList rule.1 with
    | some m =>
      match rule.2 m.caps with
      | some t =>
        if is_valid_time t then
          some { time := t, confidence := 90, matched_text := matchedText text.toList m }
        else none
      | none => none
    | none => none)

structure VRes where
  errors : List String
  suggestions : List String
deriving DecidableEq, Repr

/-- `_validate_parsed_datetime`. -/
def validate_parsed_datetime (now : Date) (date_str time_str : Option String) : VRes :=
  let dpart : VRes :=
    match date_str with
    | some ds =>
      match parseIso ds with
      | some parsed_date =>
        let e1 := if dateLt parsed_date now then
            ["Date " ++ fmtLongDate parsed_date ++ " is in the past"] else []
        let s1 := if dateLt parsed_date now then ["Please specify a future date"] else []
        let e2 := if rataDie parsed_date > rataDie now + 365 then
            ["Date is more than a year in the future"] else []
        let s2 := if rataDie parsed_date > rataDie now + 365 then
            ["Please specify a date within the next year"] else []
        let s3 := if dateWeekday parsed_date ≥ 5 then
            ["Note: " ++ weekdayNameFull parsed_date ++ " is a weekend"] else []
        { errors := e1 ++ e2, suggestions := s1 ++ s2 ++ s3 }
      | none => { errors := ["Invalid date format: " ++ ds], suggestions := [] }
    | none => { errors := [], suggestions := [] }
  let tpart : VRes :=
    match time_str with
    | some ts =>
      match splitOnChar ':' ts.toList with
      | hs :: _ :: _ =>
        match digitsToNat? (String.mk hs) with
        | some hour =>
          if hour < 9 || hour ≥ 18 then
            { errors := [], suggestions := ["Note: Time is outside typical business hours (9 AM - 6 PM)"] }
          else { errors := [], suggestions := [] }
        | none => { errors := ["Invalid time format: " ++ ts], suggestions := [] }
      | _ => { errors := ["Invalid time format: " ++ ts], suggestions := [] }
    | none => { errors := [], suggestions := [] }
  { errors := dpart.errors ++ tpart.errors,
    suggestions := dpart.suggestions ++ tpart.suggestions }

structure ParseResult where
  original_text : String
  date : Option String
  time : Option String
  confidence : Nat
  parsing_details : List String
  errors : List String
  suggestions : List String
deriving DecidableEq, Repr

/-- `parse_appointment_request` — the extractor's entry point (the spec's
`parse_datetime(text, now)` contract is realised by this function). -/
def parse_appointment_request (now : Date) (fuzzy : String → Option Date) (text : String) : ParseResult :=
  let text_lower := strTrim (strLower text)
  let date_result := extract_date_precise now fuzzy text_lower
  let time_result := extract_time_precise text_lower
  let date := date_result.map (fun r => r.date)
  let time := time_result.map (fun r => r.time)
  let conf0 : Nat :=
    (match date_result with | some r => r.confidence | none => 0) +
    (match time_result with | some r => r.confidence | none => 0)
  let details :=
    (match date_result with
     | some r => ["Date: " ++ r.matched_text ++ " -> " ++ r.date]
     | none => []) ++
    (match time_result with
     | some r => ["Time: " ++ r.matched_text ++ " -> " ++ r.time]
     | none => [])
  let errors0 := match date_result with
    | some _ => []
    | none => ["Could not parse date from the request"]
  let sugg0 :=
    (match date_result with
     | some _ => []
     | none => ["Try formats like '5th July', 'July 5th', or '2025-07-05'"]) ++
    (match time_result with
     | some _ => []
     | none => ["No time specified. Try adding a time like '3:30pm', '15:00', or 'afternoon'"])
  let components_found := (if date.isSome then 1 else 0) + (if time.isSome then 1 else 0)
  let confidence := if components_found > 0 then min (conf0 / components_found) 100 else conf0
  let v := validate_parsed_datetime now date time
  { original_text := text, date := date, time := time, confidence := confidence,
    parsing_details := details, errors := errors0 ++ v.errors,
    suggestions := sugg0 ++ v.suggestions }

/-! ## `backend/date_time_parser.py` — `DateTimeParser`

The second (near-duplicate) parser module; it is the one
`enhanced_langgraph_agent.py` instantiates.  Its pattern table is a Python
dict, iterated in insertion order.  Names are prefixed `dtp` to keep the
two modules' methods apart. -/

/-- `self.months` of `DateTimeParser` (no `sept`/`augus` variants, no short
`may`). -/
def dtpMonths : List (String × Nat) :=
  [("january", 1), ("february", 2), ("march", 3), ("april", 4),
   ("may", 5), ("june", 6), ("july", 7), ("august", 8),
   ("september", 9), ("october", 10), ("november", 11), ("december", 12),
   ("jan", 1), ("feb", 2), ("mar", 3), ("apr", 4),
   ("jun", 6), ("jul", 7), ("aug", 8), ("sep", 9),
   ("oct", 10), ("nov", 11), ("dec", 12)]

/-- `self.weekdays` of `DateTimeParser` (same table as the advanced parser). -/
def dtpWeekdays : List (String × Nat) := advWeekdays

/-- Month alternation used by `DateTimeParser`'s regexes: full names only. -/
def dtpMonthAlt : List String :=
  ["january", "february", "march", "april", "may", "june", "july",
   "august", "september", "october", "november", "december"]

/-- Weekday alternation used by `DateTimeParser`'s regexes: full names only. -/
def dtpWeekdayAlt : List String :=
  ["monday", "tuesday", "wednesday", "thursday", "friday", "saturday", "sunday"]

/-- `_get_this_week`: next Monday. -/
def dtp_get_this_week (now : Date) : Option Date :=
  let da : Int := 0 - (dateWeekday now : Int)
  let da := if da ≤ 0 then da + 7 else da
  addDaysO now da.toNat

/-- `_get_next_weekday` (unknown weekday returns today instead of raising). -/
def dtp_get_next_weekday (now : Date) (weekday_name : String) : Option Date :=
  match tableGet dtpWeekdays weekday_name with
  | none => some now
  | some wn =>
    let da : Int := (wn : Int) - (dateWeekday now : Int)
    let da := if da ≤ 0 then da + 7 else da
    addDaysO now da.toNat

/-- `_get_this_weekday`. -/
def dtp_get_this_weekday (now : Date) (weekday_name : String) : Option Date :=
  match tableGet dtpWeekdays weekday_name with
  | none => some now
  | some wn =>
    let da : Int := (wn : Int) - (dateWeekday now : Int)
    let da := if da < 0 then da + 7 else da
    addDaysO now da.toNat

/-- `_parse_date_format(month, day, year)` for `D/M/Y` (the first captured
number is bound to the parameter `month`); tries `(year, month, day)` then
`(year, day, month)`, falling back to today. -/
def dtp_parse_date_format (now : Date) (month day year : String) : Option Date :=
  let month_num := toNat10 month
  let day_num := toNat10 day
  let yv := toNat10 year
  let year_num := if yv < 100 then (if yv < 50 then yv + 2000 else yv + 1900) else yv
  match mkDate year_num month_num day_num with
  | some t => some t
  | none =>
    match mkDate year_num day_num month_num with
    | some t => some t
    | none => some now

/-- `_parse_month_day`: "January 15th"; unknown month or any `ValueError`
(including one raised while rolling to next year) yields today. -/
def dtp_parse_month_day (now : Date) (month_name day : String) : Option Date :=
  match tableGet dtpMonths month_name with
  | none => some now
  | some month_num =>
    let day_num := toNat10 day
    match mkDate now.year month_num day_num with
    | some target =>
      if dateLt target now then
        match mkDate (now.year + 1) month_num day_num with
        | some t2 => some t2
        | none => some now
      else some target
    | none => some now

/-- `_parse_day_month`: "15th January". -/
def dtp_parse_day_month (now : Date) (day month_name : String) : Option Date :=
  dtp_parse_month_day now month_name day

/-- `self.date_patterns` of `DateTimeParser`, in dict insertion order. -/
def dtpDatePatterns (now : Date) : List (RE × (Caps → Option Date)) :=
  [ (rseq [.wb, .lit "today".toList, .wb], fun _ => some now),
    (rseq [.wb, .lit "tomorrow".toList, .wb], fun _ => addDaysO now 1),
    (rseq [.wb, .lit "yesterday".toList, .wb], fun _ => subDaysO now 1),
    (rseq [.wb, .lit "next week".toList, .wb], fun _ => addDaysO now 7),
    (rseq [.wb, .lit "this week".toList, .wb], fun _ => dtp_get_this_week now),
    (rseq [.wb, .lit "next month".toList, .wb], fun _ => addMonthsO now 1),
    (rseq [.wb, .lit "this month".toList, .wb], fun _ => some now),
    -- r'\bnext (monday|...|sunday)\b' etc. (full weekday names only)
    (rseq [.wb, .lit "next ".toList, .grp 1 (altWords dtpWeekdayAlt), .wb],
     fun cs => do dtp_get_next_weekday now (← capGet cs 1)),
    (rseq [.wb, .lit "this ".toList, .grp 1 (altWords dtpWeekdayAlt), .wb],
     fun cs => do dtp_get_this_weekday now (← capGet cs 1)),
    (rseq [.wb, .grp 1 (altWords dtpWeekdayAlt), .wb],
     fun cs => do dtp_get_next_weekday now (← capGet cs 1)),
    -- r'\b(\d{1,2})[\/\-](\d{1,2})[\/\-](\d{2,4})\b'  (year mandatory here)
    (rseq [.wb, .grp 1 (.rep 1 2 Char.isDigit), .cls sepSlashDash,
           .grp 2 (.rep 1 2 Char.isDigit), .cls sepSlashDash,
           .grp 3 (.rep 2 4 Char.isDigit), .wb],
     fun cs => do dtp_parse_date_format now (← capGet cs 1) (← capGet cs 2) (← capGet cs 3)),
    -- r'\b(january|...)\s+(\d{1,2})(?:st|nd|rd|th)?\b'
    (rseq [.wb, .grp 1 (altWords dtpMonthAlt), .many1 Char.isWhitespace,
           .grp 2 (.rep 1 2 Char.isDigit), ordSuffix, .wb],
     fun cs => do dtp_parse_month_day now (← capGet cs 1) (← capGet cs 2)),
    -- r'\b(\d{1,2})(?:st|nd|rd|th)?\s+(january|...)\b'
    (rseq [.wb, .grp 1 (.rep 1 2 Char.isDigit), ordSuffix,
           .many1 Char.isWhitespace, .grp 2 (altWords dtpMonthAlt), .wb],
     fun cs => do dtp_parse_day_month now (← capGet cs 1) (← capGet cs 2)),
    -- r'\bin\s+(\d+)\s+days?\b' and friends
    (rseq [.wb, .lit "in".toList, .many1 Char.isWhitespace,
           .grp 1 (.many1 Char.isDigit), .many1 Char.isWhitespace,
           .lit "day".toList, .opt (.lit ['s']), .wb],
     fun cs => do addDaysO now (toNat10 (← capGet cs 1))),
    (rseq [.wb, .lit "in".toList, .many1 Char.isWhitespace,
           .grp 1 (.many1 Char.isDigit), .many1 Char.isWhitespace,
           .lit "week".toList, .opt (.lit ['s']), .wb],
     fun cs => do addDaysO now (7 * toNat10 (← capGet cs 1))),
    (rseq [.wb, .lit "in".toList, .many1 Char.isWhitespace, .lit "a".toList,
           .many1 Char.isWhitespace, .lit "week".toList, .wb],
     fun _ => addDaysO now 7),
    (rseq [.wb, .lit "in".toList, .many1 Char.isWhitespace,
           .grp 1 (.many1 Char.isDigit), .many1 Char.isWhitespace,
           .lit "month".toList, .opt (.lit ['s']), .wb],
     fun cs => do addMonthsO now (toNat10 (← capGet cs 1))) ]

/-- `DateTimeParser._parse_12_hour` (note the `minute != '00'` quirk, which
is numerically the identity on digit strings and is kept as written). -/
def dtp_parse_12_hour (hour minute period : String) : Option String :=
  let hour_num := toNat10 hour
  let minute_num := if minute == "00" then 0 else toNat10 minute
  let hour_num :=
    if strLower period == "pm" && hour_num ≠ 12 then hour_num + 12
    else if strLower period == "am" && hour_num = 12 then 0
    else hour_num
  some (padNat 2 hour_num ++ ":" ++ padNat 2 minute_num)

/-- `DateTimeParser._parse_12_hour_simple`. -/
def dtp_parse_12_hour_simple (hour period : String) : Option String :=
  dtp_parse_12_hour hour "00" period

/-- `DateTimeParser._parse_24_hour` (falls back to "09:00" instead of
raising). -/
def dtp_parse_24_hour (hour minute : String) : Option String :=
  let hour_num := toNat10 hour
  let minute_num := toNat10 minute
  if hour_num ≤ 23 && minute_num ≤ 59 then
    some (padNat 2 hour_num ++ ":" ++ padNat 2 minute_num)
  else some "09:00"

/-- `DateTimeParser._parse_military_time(hour, minute)` ("1430 hours"). -/
def dtp_parse_military_time (hour minute : String) : Option String :=
  let time_str := hour ++ minute
  if time_str.length = 4 then
    dtp_parse_24_hour (String.mk (time_str.toList.take 2)) (String.mk (time_str.toList.drop 2))
  else some "09:00"

/-- `self.time_patterns` of `DateTimeParser`, in dict insertion order. -/
def dtpTimePatterns : List (RE × (Caps → Option String)) :=
  [ (rseq [.wb, .grp 1 (.rep 1 2 Char.isDigit), .lit [':'],
           .grp 2 (.rep 2 2 Char.isDigit), .many0 Char.isWhitespace,
           .grp 3 (altWords ["am", "pm"]), .wb],
     fun cs => do dtp_parse_12_hour (← capGet cs 1) (← capGet cs 2) (← capGet cs 3)),
    (rseq [.wb, .grp 1 (.rep 1 2 Char.isDigit), .many0 Char.isWhitespace,
           .grp 2 (altWords ["am", "pm"]), .wb],
     fun cs => do dtp_parse_12_hour_simple (← capGet cs 1) (← capGet cs 2)),
    (rseq [.wb, .grp 1 (.rep 1 2 Char.isDigit), .lit [':'],
           .grp 2 (.rep 2 2 Char.isDigit), .wb],
     fun cs => do dtp_parse_24_hour (← capGet cs 1) (← capGet cs 2)),
    -- r'\b(\d{1,2})(\d{2})\s*hours?\b'
    (rseq [.wb, .grp 1 (.rep 1 2 Char.isDigit), .grp 2 (.rep 2 2 Char.isDigit),
           .many0 Char.isWhitespace, .lit "hour".toList, .opt (.lit ['s']), .wb],
     fun cs => do dtp_parse_military_time (← capGet cs 1) (← capGet cs 2)),
    (rseq [.wb, .lit "morning".toList, .wb], fun _ => some "09:00"),
    (rseq [.wb, .lit "afternoon".toList, .wb], fun _ => some "15:00"),
    (rseq [.wb, .lit "evening".toList, .wb], fun _ => some "18:00"),
    (rseq [.wb, .lit "night".toList, .wb], fun _ => some "20:00"),
    (rseq [.wb, .lit "midnight".toList, .wb], fun _ => some "00:00"),
    (rseq [.wb, .lit "noon".toList, .wb], fun _ => some "12:00"),
    (rseq [.wb, .lit "half past ".toList, .grp 1 (.rep 1 2 Char.isDigit), .wb],
     fun cs => do parse_half_past (← capGet cs 1)),
    (rseq [.wb, .lit "quarter past ".toList, .grp 1 (.rep 1 2 Char.isDigit), .wb],
     fun cs => do parse_quarter_past (← capGet cs 1)),
    (rseq [.wb, .lit "quarter to ".toList, .grp 1 (.rep 1 2 Char.isDigit), .wb],
     fun cs => do parse_quarter_to (← capGet cs 1)) ]

/-- `DateTimeParser._extract_date`: patterns in order at confidence 0.9,
then the `dateutil` fuzzy fallback on the raw (lowered) text at
confidence 0.7, accepted only if different from today. -/
def dtp_extract_date (now : Date) (fuzzy : String → Option Date) (text : String) : Option DateHit :=
  match tryDateRules (dtpDatePatterns now) text.toList with
  | some r => some r
  | none =>
    match fuzzy text with
    | some d =>
      if d ≠ now then
        some { date := d.toIso, confidence := 70, matched_text := "fuzzy parsing" }
      else none
    | none => none

/-- `DateTimeParser._extract_time` (its `_is_valid_time` is verbatim the
advanced parser's, so the embedding is shared). -/
def dtp_extract_time (text : String) : Option TimeHit :=
  dtpTimePatterns.findSome? (fun rule =>
    match reSearch text.toList rule.1 with
    | some m =>
      match rule.2 m.caps with
      | some t =>
        if is_valid_time t then
          some { time := t, confidence := 90, matched_text := matchedText text.toList m }
        else none
      | none => none
    | none => none)

structure DtpResult where
  date : Option String
  time : Option String
  confidence : Nat
  original_text : String
  parsed_components : List String
deriving DecidableEq, Repr

/-- `DateTimeParser.parse_datetime`. -/
def dtp_parse_datetime (now : Date) (fuzzy : String → Option Date) (text : String) : DtpResult :=
  let text_lower := strTrim (strLower text)
  let date_result := dtp_extract_date now fuzzy text_lower
  let time_result := dtp_extract_time text_lower
  let comps :=
    (match date_result with
     | some r => ["Date: " ++ r.matched_text]
     | none => []) ++
    (match time_result with
     | some r => ["Time: " ++ r.matched_text]
     | none => [])
  let conf0 : Nat :=
    (match date_result with | some r => r.confidence | none => 0) +
    (match time_result with | some r => r.confidence | none => 0)
  { date := date_result.map (fun r => r.date),
    time := time_result.map (fun r => r.time),
    confidence := if comps ≠ [] then min (conf0 / comps.length) 100 else conf0,
    original_text := text,
    parsed_components := comps }

/-- `DateTimeParser.get_suggestions`. -/
def dtp_get_suggestions (now : Date) (fuzzy : String → Option Date) (text : String) : List String :=
  let text_lower := strLower text
  if (dtp_extract_date now fuzzy text_lower).isNone && (dtp_extract_time text_lower).isNone then
    ["Try specifying a date like 'tomorrow', 'next Monday', or 'July 15th'",
     "Include a time like '3:30 PM', '15:30', or 'afternoon'",
     "Use formats like 'book tomorrow at 3 PM' or 'schedule for next week at 2:30'"]
  else []

/-! ## `backend/enhanced_langgraph_agent.py` — `EnhancedBookingAgent`

The compiled LangGraph workflow is a fixed dag: `understand_intent`, then
conditional edges.  Each `add_conditional_edges(source, router, path_map)`
resolves the router's returned string by **dict lookup in `path_map`**; a
return value that is not a key of the map raises `KeyError` inside
`graph.ainvoke`.  This matters here because two of the routers return
values that are not keys of their maps (`_route_after_intent` returns node
names where the map keys are intent names, and `_route_after_availability`
returns "confirm_booking"/"suggest_alternatives" where the keys are
"confirm"/"suggest"), so those branches raise instead of reaching their
target nodes; `process_message` catches the exception, returns a fallback
reply, and never stores the graph's result — the stored session keeps only
the user message it appended before invoking.  `lgGraphInvoke` models one
`ainvoke` (`Except.error` = a raised exception, from a collaborator or
from a failed path-map lookup) and `lgProcessMessage` the surrounding
call.  History entries carry role and content; timestamps (wall clock) and
the exact reply prose are elided — assistant replies appear as short
content tags.  The unused session fields `user_preferences` /
`conversation_context` are omitted.  The `datetime_parser` import succeeds
in this repository, so the `_basic_datetime_extraction` import-failure
fallback is dead code here and is not modelled. -/

structure Msg where
  role : String
  content : String
deriving DecidableEq, Repr

structure ExtractedInfo where
  date : Option String := none
  time : Option String := none
  confidence : Nat := 0
  parsed_components : List String := []
  validation_issues : List String := []
deriving DecidableEq, Repr

structure LGState where
  messages : List Msg := []
  user_intent : Option String := none
  extracted_info : ExtractedInfo := {}
  current_step : String := "start"
  available_slots : List String := []
  selected_slot : Option String := none
  booking_confirmed : Bool := false
  error_count : Nat := 0
  suggestions : List String := []
deriving DecidableEq, Repr

/-- The `intents` keyword table of `_understand_intent`, in dict insertion
order (which is the tie-break order of Python's `max`). -/
def lgIntentTable : List (String × List String) :=
  [("booking_request",
    ["book", "schedule", "appointment", "meeting", "call", "reserve",
     "set up", "arrange", "plan", "tomorrow", "next week", "today"]),
   ("modify_booking",
    ["change", "modify", "update", "reschedule", "move", "shift",
     "different time", "another day"]),
   ("cancel_booking",
    ["cancel", "delete", "remove", "abort", "call off"]),
   ("availability_check",
    ["available", "free", "availability", "open", "slots", "when"]),
   ("confirmation",
    ["yes", "confirm", "book it", "that works", "sounds good",
     "perfect", "ok", "okay", "sure", "go ahead"]),
   ("help",
    ["help", "how", "what can", "commands", "options", "guide"])]

/-- `sum(1 for keyword in keywords if keyword in last_message)`. -/
def countHits (message : String) (keywords : List String) : Nat :=
  (keywords.filter (fun k => containsSub message k)).length

/-- Python's `max(d, key=d.get)` over a dict in insertion order: of all
maxima, the first inserted wins (`max` replaces its candidate only on a
strictly greater key). -/
def firstMax : List (String × Nat) → Option (String × Nat)
  | [] => none
  | x :: r =>
    match firstMax r with
    | none => some x
    | some b => if b.2 > x.2 then some b else some x

/-- `intent_scores`: only intents with a positive score enter the dict. -/
def scoreIntents (message : String) : List (String × Nat) :=
  lgIntentTable.filterMap (fun p =>
    let s := countHits message p.2
    if s > 0 then some (p.1, s) else none)

/-- The step-aware override at the end of `_understand_intent`. -/
def lgConfirmShortcut (message current_step : String) : Bool :=
  current_step == "awaiting_confirmation" &&
    (["yes", "confirm", "ok", "sure"].any (fun w => containsSub message w))

/-- The intent decision of `_understand_intent` on the lowered last message. -/
def lgClassify (message current_step : String) : String :=
  let detected :=
    match firstMax (scoreIntents message) with
    | some m => m.1
    | none => "general_question"
  if lgConfirmShortcut message current_step then "confirmation" else detected

/-- `_extract_datetime` (node): runs `DateTimeParser.parse_datetime` on the
last message and merges into `extracted_info` — any non-empty parsed date or
time overwrites the stored one regardless of the stored confidence. -/
def extract_datetime (now : Date) (fuzzy : String → Option Date) (st : LGState) : LGState :=
  let last_message := (st.messages.getLastD ⟨"", ""⟩).content
  let parsed_result := dtp_parse_datetime now fuzzy last_message
  let ei := st.extracted_info
  let ei := match parsed_result.date with
    | some d => { ei with date := some d }
    | none => ei
  let ei := match parsed_result.time with
    | some t => { ei with time := some t }
    | none => ei
  let ei := { ei with confidence := parsed_result.confidence,
                      parsed_components := parsed_result.parsed_components }
  let sugg :=
    if parsed_result.date.isNone && parsed_result.time.isNone then
      dtp_get_suggestions now fuzzy last_message
    else st.suggestions
  { st with extracted_info := ei, suggestions := sugg,
            current_step := "datetime_extracted" }

instance : DecidableEq (Except Unit LGState) := fun a b =>
  match a, b with
  | .error _, .error _ => isTrue rfl
  | .ok x, .ok y =>
    if h : x = y then isTrue (by rw [h]) else
      isFalse (fun he => h (Except.ok.inj he))
  | .error _, .ok _ => isFalse (fun he => Except.noConfusion he)
  | .ok _, .error _ => isFalse (fun he => Except.noConfusion he)

def ebBookingKeywords : List String :=
  ["book", "schedule", "appointment", "meeting", "reserve", "arrange"]

def ebAvailabilityKeywords : List String :=
  ["available", "availability", "free", "slots", "when", "show me"]

def ebGreetingKeywords : List String :=
  ["hello", "hi", "hey", "good morning", "good afternoon"]

def ebHelpKeywords : List String :=
  ["help", "how", "what can", "commands", "guide"]

/-- `EnhancedBookingAgent._detect_intent`: context shortcuts first, then a
fixed keyword **cascade** — the first category with any hit wins, not the
highest-scoring one. -/
def detect_intent (message : String) (last_action : Option String) : String :=
  let ml := strLower message
  if last_action == some "awaiting_time_selection" &&
      ([":", "am", "pm", "morning", "afternoon", "evening"].any (fun p => containsSub ml p)) then
    "time_selection"
  else if last_action == some "awaiting_date_selection" &&
      (["monday", "tuesday", "wednesday", "thursday", "friday", "july", "august", "tomorrow"].any
        (fun p => containsSub ml p)) then
    "date_selection"
  else if last_action == some "awaiting_confirmation" &&
      (["yes", "confirm", "book", "ok", "sure", "go ahead"].any (fun w => containsSub ml w)) then
    "confirmation"
  else if ebBookingKeywords.any (fun k => containsSub ml k) then "appointment_booking"
  else if ebAvailabilityKeywords.any (fun k => containsSub ml k) then "availability_check"
  else if ebGreetingKeywords.any (fun k => containsSub ml k) then "greeting"
  else if ebHelpKeywords.any (fun k => containsSub ml k) then "help"
  else "general_query"

/-- The history effect of one successful `EnhancedBookingAgent.process_message`
turn: the user message and the assistant reply are appended to
`session['conversation_history']` — with no trimming anywhere. -/
def ebProcessHistory (history : List Msg) (message response : String) : List Msg :=
  (history ++ [⟨"user", message⟩]) ++ [⟨"assistant", response⟩]

/-- History after a sequence of `(message, response)` turns for one user,
starting from the fresh session's empty history. -/
def ebHistoryAfter (turns : List (String × String)) : List Msg :=
  turns.foldl (fun h t => ebProcessHistory h t.1 t.2) []

/-! ## `backend/secure_user_agent.py` — bounded conversation history -/

/-- The last `n` elements of a list, in order (Python `l[-n:]`). -/
def takeLast (n : Nat) (l : List Msg) : List Msg :=
  l.drop (l.length - n)

/-- `SecureUserAgent._add_to_conversation`: append one entry, then keep
only the last 20 entries. -/
def add_to_conversation (history : List Msg) (entry : Msg) : List Msg :=
  let h := history ++ [entry]
  if h.length > 20 then h.drop (h.length - 20) else h

/-! ## Concrete scenario data

The spec's fixed instant is `now = 2025-06-27 10:00 Asia/Kolkata`; the
parsers consume only its date (and, for day arithmetic, whole-day offsets,
exact in a DST-free zone), so the scenarios fix `nowS = 2025-06-27`,
a Friday. -/

def nowS : Date := ⟨2025, 6, 27⟩

/-- A `dateutil` collaborator that extracts nothing (raises / unusable). -/
def fuzzyNone : String → Option Date := fun _ => none

/-- A `dateutil` collaborator returning 2025-08-15 for any text: stands for
a fuzzy parse that succeeds where no explicit rule matches. -/
def fuzzyAug15 : String → Option Date := fun _ => some ⟨2025, 8, 15⟩

/-- The session state after the date and time have been gathered at rule
confidence 0.9 (as `_extract_datetime` would have stored them), about to
handle the next message "zzz". -/
def c1PriorState : LGState :=
  { messages := [⟨"user", "zzz"⟩],
    extracted_info := { date := some "2025-07-05", time := some "15:30", confidence := 90 },
    current_step := "intent_understood" }

/-- The day/month reading of a numeric `D/M` date without a year, stated
from the spec's words (§4.1): interpret as day `d` of month `mo` when `mo`
can be a month, rolling a past date into next year. -/
def dmInterp (now : Date) (d mo : Nat) : Option Date :=
  if mo ≤ 12 then
    match mkDate now.year mo d with
    | some t => if dateLt t now then mkDate (now.year + 1) mo d else some t
    | none => none
  else none

/-- The month/day fallback reading of `D/M` without a year, stated from the
spec's words (§4.1). -/
def mdInterp (now : Date) (d mo : Nat) : Option Date :=
  if d ≤ 12 then
    match mkDate now.year d mo with
    | some t => if dateLt t now then mkDate (now.year + 1) d mo else some t
    | none => none
  else none

/-! # Theorems -/

/-! ### Helper lemmas (shared) -/

theorem tryDateRules_conf (s : List Char) :
    ∀ (rules : List (RE × (Caps → Option Date))) (r : DateHit),
      tryDateRules rules s = some r → r.confidence = 90 := by
  intro rules
  induction rules with
  | nil => intro r h; simp [tryDateRules] at h
  | cons rule tl ih =>
    intro r h
    rw [tryDateRules, List.findSome?_cons] at h
    rcases hm : reSearch s rule.1 with _ | m
    · simp only [hm] at h
      exact ih r (by rw [tryDateRules]; exact h)
    · simp only [hm] at h
      rcases hr : rule.2 m.caps with _ | d
      · simp only [hr] at h
        exact ih r (by rw [tryDateRules]; exact h)
      · simp only [hr, Option.some.injEq] at h
        rw [← h]

theorem extract_date_precise_conf (now : Date) (fuzzy : String → Option Date)
    (text : String) (r : DateHit) (h : extract_date_precise now fuzzy text = some r) :
    r.confidence = 90 ∨ r.confidence = 60 := by
  rw [extract_date_precise] at h
  rcases ht : tryDateRules (advDatePatterns now) text.toList with _ | r2
  · simp only [ht] at h
    rcases hf : fuzzy (cleanForFuzzy text) with _ | d
    · simp only [hf] at h
      exact Option.noConfusion h
    · simp only [hf] at h
      by_cases hd : d ≠ now
      · rw [if_pos hd] at h
        cases h
        right
        rfl
      · rw [if_neg hd] at h
        cases h
  · simp only [ht, Option.some.injEq] at h
    left
    rw [← h]
    exact tryDateRules_conf text.toList (advDatePatterns now) r2 ht

theorem dtp_extract_date_conf (now : Date) (fuzzy : String → Option Date)
    (text : String) (r : DateHit) (h : dtp_extract_date now fuzzy text = some r) :
    r.confidence = 90 ∨ r.confidence = 70 := by
  rw [dtp_extract_date] at h
  rcases ht : tryDateRules (dtpDatePatterns now) text.toList with _ | r2
  · simp only [ht] at h
    rcases hf : fuzzy text with _ | d
    · simp only [hf] at h
      exact Option.noConfusion h
    · simp only [hf] at h
      by_cases hd : d ≠ now
      · rw [if_pos hd] at h
        cases h
        right
        rfl
      · rw [if_neg hd] at h
        cases h
  · simp only [ht, Option.some.injEq] at h
    left
    rw [← h]
    exact tryDateRules_conf text.toList (dtpDatePatterns now) r2 ht

theorem timeRules_conf (s : List Char) :
    ∀ (rules : List (RE × (Caps → Option String))) (r : TimeHit),
      (rules.findSome? (fun rule =>
        match reSearch s rule.1 with
        | some m =>
          match rule.2 m.caps with
          | some t =>
            if is_valid_time t then
              some { time := t, confidence := 90, matched_text := matchedText s m }
            else none
          | none => none
        | none => none) = some r) → r.confidence = 90 := by
  intro rules
  induction rules with
  | nil => intro r h; simp at h
  | cons rule tl ih =>
    intro r h
    rw [List.findSome?_cons] at h
    rcases hm : reSearch s rule.1 with _ | m
    · simp only [hm] at h
      exact ih r h
    · simp only [hm] at h
      rcases hr : rule.2 m.caps with _ | t
      · simp only [hr] at h
        exact ih r h
      · simp only [hr] at h
        by_cases hv : is_valid_time t
        · rw [if_pos hv] at h
          cases h
          rfl
        · rw [if_neg hv] at h
          exact ih r h

theorem extract_time_precise_conf (text : String) (r : TimeHit)
    (h : extract_time_precise text = some r) : r.confidence = 90 :=
  timeRules_conf text.toList advTimePatterns r h

theorem dtp_extract_time_conf (text : String) (r : TimeHit)
    (h : dtp_extract_time text = some r) : r.confidence = 90 :=
  timeRules_conf text.toList dtpTimePatterns r h

/-! ### C1 — monotonic slot merge (SlotConflictError semantics) -/

/-- C1 (code bug): the spec requires that a slot stored at confidence ≥ 0.9
never be overwritten by a later merge of lower confidence
(`SlotConflictError` semantics, §7/§8 of the spec), but
`_extract_datetime` overwrites unconditionally whenever the new parse is
non-empty.  Concretely: with `extracted_info.date = "2025-07-05"` stored at
confidence 0.9, handling the message "zzz" — which no pattern rule matches
and whose `dateutil` fuzzy fallback yields 2025-08-15 at confidence 0.7 —
replaces the stored date with "2025-08-15" (the 0.9-confidence value is
lost), while the empty time field of the same parse indeed leaves the
stored time unchanged. -/
theorem C1_merge_overwrites_low_confidence :
    (extract_datetime nowS fuzzyAug15 c1PriorState).extracted_info.date = some "2025-08-15" ∧
    (extract_datetime nowS fuzzyAug15 c1PriorState).extracted_info.time = some "15:30" ∧
    (extract_datetime nowS fuzzyAug15 c1PriorState).extracted_info.confidence = 70 ∧
    ((70 : Nat) < 90) ∧
    c1PriorState.extracted_info.date = some "2025-07-05" ∧
    c1PriorState.extracted_info.confidence = 90 := by
  refine ⟨by decide, by decide, by decide, by norm_num, by decide, by decide⟩

/-! ### C2 — the extractor is total and an unparseable string yields
suggestions -/

theorem papr_date_eq (now : Date) (fuzzy : String → Option Date) (text : String) :
    (parse_appointment_request now fuzzy text).date =
      (extract_date_precise now fuzzy (strTrim (strLower text))).map (fun r => r.date) := rfl

theorem papr_time_eq (now : Date) (fuzzy : String → Option Date) (text : String) :
    (parse_appointment_request now fuzzy text).time =
      (extract_time_precise (strTrim (strLower text))).map (fun r => r.time) := rfl

theorem papr_suggestions_of_none (now : Date) (fuzzy : String → Option Date) (text : String)
    (h1 : extract_date_precise now fuzzy (strTrim (strLower text)) = none)
    (h2 : extract_time_precise (strTrim (strLower text)) = none) :
    (parse_appointment_request now fuzzy text).suggestions =
      ["Try formats like '5th July', 'July 5th', or '2025-07-05'",
       "No time specified. Try adding a time like '3:30pm', '15:00', or 'afternoon'"] := by
  simp [parse_appointment_request, h1, h2, validate_parsed_datetime]

/-- C2 (confirmed): the extractor is a total function of its input — in this
embedding every resolver exception is an `Option.none` consumed by the rule
loop (`List.findSome?` continues with the next rule), so
`parse_appointment_request` returns a `ParseResult` for every string — and
whenever no date and no time could be extracted (for any behaviour of the
external `dateutil` collaborator), both result fields are absent and the
`suggestions` list is non-empty. -/
theorem C2_unparseable_yields_suggestions (now : Date) (fuzzy : String → Option Date)
    (text : String)
    (hd : (parse_appointment_request now fuzzy text).date = none)
    (ht : (parse_appointment_request now fuzzy text).time = none) :
    (parse_appointment_request now fuzzy text).suggestions ≠ [] := by
  rw [papr_date_eq, Option.map_eq_none'] at hd
  rw [papr_time_eq, Option.map_eq_none'] at ht
  rw [papr_suggestions_of_none now fuzzy text hd ht]
  simp

theorem C2_witness :
    ((parse_appointment_request nowS fuzzyNone "qqq").date = none ∧
     (parse_appointment_request nowS fuzzyNone "qqq").time = none) ∧
    (parse_appointment_request nowS fuzzyNone "qqq").suggestions ≠ [] :=
  ⟨⟨by decide, by decide⟩,
   C2_unparseable_yields_suggestions nowS fuzzyNone "qqq" (by decide) (by decide)⟩

/-! ### C3 — confidence bounds -/

/-- C3 (confirmed): for every input (and every behaviour of the external
fuzzy collaborator) the overall confidence of both extractors lies in
`[0, 1]`, and it is exactly 0 whenever neither a date nor a time component
was extracted. -/
theorem C3_confidence_bounds (now : Date) (fz1 fz2 : String → Option Date) (text : String) :
    (0 ≤ (parse_appointment_request now fz1 text).confidence ∧
     (parse_appointment_request now fz1 text).confidence ≤ 100 ∧
     ((parse_appointment_request now fz1 text).date = none ∧
      (parse_appointment_request now fz1 text).time = none →
      (parse_appointment_request now fz1 text).confidence = 0)) ∧
    (0 ≤ (dtp_parse_datetime now fz2 text).confidence ∧
     (dtp_parse_datetime now fz2 text).confidence ≤ 100 ∧
     ((dtp_parse_datetime now fz2 text).date = none ∧
      (dtp_parse_datetime now fz2 text).time = none →
      (dtp_parse_datetime now fz2 text).confidence = 0)) := by
  constructor
  · rcases hdr : extract_date_precise now fz1 (strTrim (strLower text)) with _ | rd <;>
      rcases htr : extract_time_precise (strTrim (strLower text)) with _ | rt
    · simp [parse_appointment_request, hdr, htr]
    · have hc := extract_time_precise_conf (strTrim (strLower text)) rt htr
      simp [parse_appointment_request, hdr, htr, hc]
    · have hc := extract_date_precise_conf now fz1 (strTrim (strLower text)) rd hdr
      rcases hc with hc | hc <;> simp [parse_appointment_request, hdr, htr, hc]
    · have hc1 := extract_date_precise_conf now fz1 (strTrim (strLower text)) rd hdr
      have hc2 := extract_time_precise_conf (strTrim (strLower text)) rt htr
      rcases hc1 with hc1 | hc1 <;>
        simp [parse_appointment_request, hdr, htr, hc1, hc2]
  · rcases hdr : dtp_extract_date now fz2 (strTrim (strLower text)) with _ | rd <;>
      rcases htr : dtp_extract_time (strTrim (strLower text)) with _ | rt
    · simp [dtp_parse_datetime, hdr, htr]
    · have hc := dtp_extract_time_conf (strTrim (strLower text)) rt htr
      simp [dtp_parse_datetime, hdr, htr, hc]
    · have hc := dtp_extract_date_conf now fz2 (strTrim (strLower text)) rd hdr
      rcases hc with hc | hc <;> simp [dtp_parse_datetime, hdr, htr, hc]
    · have hc1 := dtp_extract_date_conf now fz2 (strTrim (strLower text)) rd hdr
      have hc2 := dtp_extract_time_conf (strTrim (strLower text)) rt htr
      rcases hc1 with hc1 | hc1 <;>
        simp [dtp_parse_datetime, hdr, htr, hc1, hc2]

theorem C3_witness :
    (parse_appointment_request nowS fuzzyNone "qqq").confidence = 0 ∧
    (dtp_parse_datetime nowS fuzzyNone "qqq").confidence = 0 :=
  ⟨(C3_confidence_bounds nowS fuzzyNone fuzzyNone "qqq").1.2.2 ⟨by decide, by decide⟩,
   (C3_confidence_bounds nowS fuzzyNone fuzzyNone "qqq").2.2.2 ⟨by decide, by decide⟩⟩

/-! ### C5 — the spec's concrete scenario 1 -/

/-- C5 (confirmed): with now = 2025-06-27 (Asia/Kolkata), parsing
"5th July at 3:30pm" yields date 2025-07-05, time 15:30, overall
confidence 0.9 — in both extractor modules (the spec's `parse_datetime`
entry point is realised by `parse_appointment_request`, whose resolvers the
claim cites; `DateTimeParser.parse_datetime` returns the same values). -/
theorem C5_scenario_5th_july :
    (parse_appointment_request nowS fuzzyNone "5th July at 3:30pm").date = some "2025-07-05" ∧
    (parse_appointment_request nowS fuzzyNone "5th July at 3:30pm").time = some "15:30" ∧
    (parse_appointment_request nowS fuzzyNone "5th July at 3:30pm").confidence = 90 ∧
    (dtp_parse_datetime nowS fuzzyNone "5th July at 3:30pm").date = some "2025-07-05" ∧
    (dtp_parse_datetime nowS fuzzyNone "5th July at 3:30pm").time = some "15:30" ∧
    (dtp_parse_datetime nowS fuzzyNone "5th July at 3:30pm").confidence = 90 := by
  refine ⟨by decide, by decide, by decide, by decide, by decide, by decide⟩

/-! ### C4 — a full-information booking request never reaches
AWAITING_CONFIRMATION -/

/-- C6 (confirmed): for any day-plus-month expression (digit-run day `ds`
and a month name in the parser's table), when the date resolved in the
current year is strictly before now, `_parse_day_month` returns the same
day/month in the next year (`mkDate (now.year + 1) ...` — which is `none`
exactly when that next-year date does not exist, making the rule fail); and
when the day/month combination is invalid in the current year (e.g.
Feb 30), it retries the same day/month in the next year before failing. -/
theorem C6_year_rollover (now : Date) (ds month : String) (m : Nat)
    (hm : tableGet advMonths month = some m) :
    (∀ t, mkDate now.year m (toNat10 (String.mk (ds.toList.filter Char.isDigit))) = some t →
      dateLt t now = true →
      parse_day_month now ds month =
        mkDate (now.year + 1) m (toNat10 (String.mk (ds.toList.filter Char.isDigit)))) ∧
    (mkDate now.year m (toNat10 (String.mk (ds.toList.filter Char.isDigit))) = none →
      parse_day_month now ds month =
        mkDate (now.year + 1) m (toNat10 (String.mk (ds.toList.filter Char.isDigit)))) := by
  constructor
  · intro t ht hlt
    simp only [String.toList] at ht
    simp [parse_day_month, hm, ht, hlt]
  · intro hn
    simp only [String.toList] at hn
    simp [parse_day_month, hm, hn]

theorem C6_witness :
    parse_day_month nowS "30" "february" = mkDate 2026 2 30 ∧
    mkDate 2026 2 30 = none ∧
    parse_day_month nowS "5" "may" = mkDate 2026 5 5 :=
  ⟨(C6_year_rollover nowS "30" "february" 2 (by decide)).2 (by decide),
   by decide,
   (C6_year_rollover nowS "5" "may" 5 (by decide)).1 ⟨2025, 5, 5⟩ (by decide) (by decide)⟩

/-! ### C7 — day/month preference for ambiguous numeric dates -/

/-- C7 (confirmed): for a numeric `D/M` date with no explicit year,
`_parse_numeric_date` returns the day/month (international) interpretation
whenever that interpretation yields a date (second number a valid month
≤ 12 and the resulting date constructible, with the usual rollover), and
falls back to the month/day interpretation exactly when the day/month
interpretation is impossible. -/
theorem C7_numeric_date_preference (now : Date) (part1 part2 : String) :
    (∀ t, dmInterp now (toNat10 part1) (toNat10 part2) = some t →
      parse_numeric_date now part1 part2 none = some t) ∧
    (dmInterp now (toNat10 part1) (toNat10 part2) = none →
      parse_numeric_date now part1 part2 none = mdInterp now (toNat10 part1) (toNat10 part2)) := by
  have hdd : parse_numeric_date now part1 part2 none =
      (match dmInterp now (toNat10 part1) (toNat10 part2) with
       | some t => some t
       | none => mdInterp now (toNat10 part1) (toNat10 part2)) := by
    simp [parse_numeric_date, dmInterp, mdInterp]
  constructor
  · intro t ht
    rw [hdd, ht]
  · intro hn
    rw [hdd, hn]

theorem C7_witness :
    parse_numeric_date nowS "5" "7" none = some ⟨2025, 7, 5⟩ ∧
    parse_numeric_date nowS "30" "2" none = mdInterp nowS 30 2 :=
  ⟨(C7_numeric_date_preference nowS "5" "7").1 ⟨2025, 7, 5⟩ (by decide),
   (C7_numeric_date_preference nowS "30" "2").2 (by decide)⟩

/-! ### C10 — the ISO-input anomaly -/

/-- C10 (confirmed): on the syntactically valid ISO input "2025-07-05"
(with now = 2025-06-27 Asia/Kolkata) the extractor returns a different
date and a spurious time, both at confidence 0.9: the numeric `D/M` rule,
declared before the ISO rule, matches the substring "07-05" (07 May, rolled
into 2026 because 2025-05-07 is past), so the ISO rule is never reached;
and the military-time rule parses the year digits "2025" as 20:25. -/
theorem C10_iso_anomaly :
    (parse_appointment_request nowS fuzzyNone "2025-07-05").date = some "2026-05-07" ∧
    (parse_appointment_request nowS fuzzyNone "2025-07-05").time = some "20:25" ∧
    (parse_appointment_request nowS fuzzyNone "2025-07-05").confidence = 90 ∧
    (parse_appointment_request nowS fuzzyNone "2025-07-05").parsing_details =
      ["Date: 07-05 -> 2026-05-07", "Time: 2025 -> 20:25"] := by
  refine ⟨by decide, by decide, by decide, by decide⟩

/-! ### C8 — intent classification -/

/-- Characterisation of `firstMax` over the positive-score filtering of a
keyword table: `none` exactly when every score is zero; otherwise the
result is a positively-scored entry whose score strictly dominates every
earlier entry and weakly dominates every later one (Python's `max` over
dict insertion order with first-wins ties). -/
theorem firstMax_filter_spec (msg : String) :
    ∀ table : List (String × List String),
      ((firstMax (table.filterMap (fun p =>
          let s := countHits msg p.2
          if s > 0 then some (p.1, s) else none)) = none →
        ∀ p ∈ table, countHits msg p.2 = 0) ∧
       (∀ m, firstMax (table.filterMap (fun p =>
          let s := countHits msg p.2
          if s > 0 then some (p.1, s) else none)) = some m →
        ∃ kws pre post, table = pre ++ (m.1, kws) :: post ∧
          countHits msg kws = m.2 ∧ 0 < m.2 ∧
          (∀ p ∈ pre, countHits msg p.2 < m.2) ∧
          (∀ p ∈ post, countHits msg p.2 ≤ m.2))) := by
  intro table
  induction table with
  | nil =>
    constructor
    · intro _ p hp
      exact absurd hp (List.not_mem_nil p)
    · intro m hm
      simp [firstMax] at hm
  | cons hd tl ih =>
    by_cases hs : countHits msg hd.2 > 0
    · have hfm : ((hd :: tl).filterMap (fun p =>
          let s := countHits msg p.2
          if s > 0 then some (p.1, s) else none)) =
          (hd.1, countHits msg hd.2) :: (tl.filterMap (fun p =>
            let s := countHits msg p.2
            if s > 0 then some (p.1, s) else none)) := by
        rw [List.filterMap_cons]
        simp [hs]
      constructor
      · intro hnone
        rw [hfm, firstMax] at hnone
        rcases hrest : firstMax (tl.filterMap (fun p =>
            let s := countHits msg p.2
            if s > 0 then some (p.1, s) else none)) with _ | b
        · simp only [hrest] at hnone
          exact Option.noConfusion hnone
        · simp only [hrest] at hnone
          by_cases hgt : b.2 > countHits msg hd.2
          · rw [if_pos hgt] at hnone
            exact Option.noConfusion hnone
          · rw [if_neg hgt] at hnone
            exact Option.noConfusion hnone
      · intro m hm
        rw [hfm, firstMax] at hm
        rcases hrest : firstMax (tl.filterMap (fun p =>
            let s := countHits msg p.2
            if s > 0 then some (p.1, s) else none)) with _ | b
        · simp only [hrest, Option.some.injEq] at hm
          subst hm
          refine ⟨hd.2, [], tl, by simp, by simp, hs, ?_, ?_⟩
          · intro p hp
            exact absurd hp (List.not_mem_nil p)
          · intro p hp
            rw [ih.1 hrest p hp]
            exact Nat.zero_le _
        · simp only [hrest] at hm
          by_cases hgt : b.2 > countHits msg hd.2
          · rw [if_pos hgt, Option.some.injEq] at hm
            subst hm
            obtain ⟨kws, pre, post, htab, hk, hpos, hpre, hpost⟩ := ih.2 b hrest
            refine ⟨kws, hd :: pre, post, ?_, hk, hpos, ?_, hpost⟩
            · rw [htab]
              rfl
            · intro p hp
              rcases List.mem_cons.mp hp with hph | hpp
              · rw [hph]
                exact hgt
              · exact hpre p hpp
          · rw [if_neg hgt, Option.some.injEq] at hm
            subst hm
            obtain ⟨kws, pre, post, htab, hk, hpos, hpre, hpost⟩ := ih.2 b hrest
            have hble : b.2 ≤ countHits msg hd.2 := Nat.le_of_not_lt hgt
            refine ⟨hd.2, [], tl, by simp, by simp, hs, ?_, ?_⟩
            · intro p hp
              exact absurd hp (List.not_mem_nil p)
            · intro p hp
              rw [htab] at hp
              rcases List.mem_append.mp hp with hp1 | hp2
              · exact Nat.le_trans (Nat.le_of_lt (hpre p hp1)) hble
              · rcases List.mem_cons.mp hp2 with hpb | hp3
                · rw [hpb]
                  exact Nat.le_trans (Nat.le_of_eq hk) hble
                · exact Nat.le_trans (hpost p hp3) hble
    · have hfm : ((hd :: tl).filterMap (fun p =>
          let s := countHits msg p.2
          if s > 0 then some (p.1, s) else none)) =
          (tl.filterMap (fun p =>
            let s := countHits msg p.2
            if s > 0 then some (p.1, s) else none)) := by
        rw [List.filterMap_cons]
        simp [hs]
      have hzero : countHits msg hd.2 = 0 := Nat.eq_zero_of_not_pos hs
      constructor
      · intro hnone
        rw [hfm] at hnone
        intro p hp
        rcases List.mem_cons.mp hp with hph | hpp
        · rw [hph]
          exact hzero
        · exact ih.1 hnone p hpp
      · intro m hm
        rw [hfm] at hm
        obtain ⟨kws, pre, post, htab, hk, hpos, hpre, hpost⟩ := ih.2 m hm
        refine ⟨kws, hd :: pre, post, ?_, hk, hpos, ?_, hpost⟩
        · rw [htab]
          rfl
        · intro p hp
          rcases List.mem_cons.mp hp with hph | hpp
          · rw [hph, hzero]
            exact hpos
          · exact hpre p hpp

/-- C8 (counterexample): `_detect_intent` of `enhanced_booking_agent.py` is
a keyword **cascade**, not a highest-score classifier: on the message
"book when free" (no step-aware shortcut active) it returns
`appointment_booking` although the booking keyword set has 1 hit and the
availability keyword set has 2 — the intent with the highest keyword-hit
count is not the one returned. -/
theorem C8_cascade_counterexample :
    detect_intent "book when free" none = "appointment_booking" ∧
    countHits (strLower "book when free") ebBookingKeywords = 1 ∧
    countHits (strLower "book when free") ebAvailabilityKeywords = 2 ∧
    ¬ countHits (strLower "book when free") ebAvailabilityKeywords ≤
        countHits (strLower "book when free") ebBookingKeywords := by
  refine ⟨by decide, by decide, by decide, by decide⟩

/-- C8 (amended): the claim holds for the scored classifier
`_understand_intent` of `enhanced_langgraph_agent.py` (which
`understand_intent` applies to the lowered last message): when the
step-aware confirmation shortcut does not trigger, the returned intent is a
positively-scored entry of the fixed keyword table whose hit count strictly
exceeds every earlier entry's and is at least every later entry's (i.e.
highest count wins, ties broken by declaration order, booking first), and a
message with zero hits in every category yields `general_question`.  The
cascade classifier `_detect_intent` of `enhanced_booking_agent.py` does
not satisfy this property (see the counterexample). -/
theorem C8_amended_argmax (message current_step : String)
    (h : lgConfirmShortcut message current_step = false) :
    ((∀ p ∈ lgIntentTable, countHits message p.2 = 0) ∧
      lgClassify message current_step = "general_question") ∨
    (∃ kws pre post, lgIntentTable = pre ++ (lgClassify message current_step, kws) :: post ∧
      0 < countHits message kws ∧
      (∀ p ∈ pre, countHits message p.2 < countHits message kws) ∧
      (∀ p ∈ post, countHits message p.2 ≤ countHits message kws)) := by
  have hspec := firstMax_filter_spec message lgIntentTable
  rcases hfm : firstMax (scoreIntents message) with _ | m
  · left
    rw [scoreIntents] at hfm
    constructor
    · exact hspec.1 hfm
    · rw [lgClassify, scoreIntents, hfm, h]
      rfl
  · right
    rw [scoreIntents] at hfm
    obtain ⟨kws, pre, post, htab, hk, hpos, hpre, hpost⟩ := hspec.2 m hfm
    have hcl : lgClassify message current_step = m.1 := by
      rw [lgClassify, scoreIntents, hfm, h]
      rfl
    rw [hcl]
    exact ⟨kws, pre, post, htab, hk ▸ hpos,
      fun p hp => hk ▸ hpre p hp, fun p hp => hk ▸ hpost p hp⟩

theorem C8_witness :
    ((∀ p ∈ lgIntentTable, countHits "book a meeting" p.2 = 0) ∧
      lgClassify "book a meeting" "start" = "general_question") ∨
    (∃ kws pre post, lgIntentTable = pre ++ (lgClassify "book a meeting" "start", kws) :: post ∧
      0 < countHits "book a meeting" kws ∧
      (∀ p ∈ pre, countHits "book a meeting" p.2 < countHits "book a meeting" kws) ∧
      (∀ p ∈ post, countHits "book a meeting" p.2 ≤ countHits "book a meeting" kws)) :=
  C8_amended_argmax "book a meeting" "start" (by decide)

/-! ### C9 — bounded history -/

/-- C9 (counterexample): `EnhancedBookingAgent.process_message` never trims
`conversation_history`; after 11 handled messages the user's history holds
22 entries, exceeding the claimed 20-entry cap. -/
theorem C9_unbounded_history_counterexample :
    (ebHistoryAfter (List.replicate 11 ("book a meeting", "reply"))).length = 22 ∧
    ¬ (ebHistoryAfter (List.replicate 11 ("book a meeting", "reply"))).length ≤ 20 := by
  refine ⟨by decide, by decide⟩

theorem add_to_conversation_eq_takeLast (h : List Msg) (e : Msg) :
    add_to_conversation h e = takeLast 20 (h ++ [e]) := by
  show (if (h ++ [e]).length > 20 then (h ++ [e]).drop ((h ++ [e]).length - 20)
        else (h ++ [e])) = (h ++ [e]).drop ((h ++ [e]).length - 20)
  by_cases hl : (h ++ [e]).length > 20
  · rw [if_pos hl]
  · rw [if_neg hl]
    have h0 : (h ++ [e]).length - 20 = 0 := by omega
    rw [h0, List.drop_zero]

theorem takeLast_append_takeLast (n : Nat) (a b : List Msg) :
    takeLast n (takeLast n a ++ b) = takeLast n (a ++ b) := by
  unfold takeLast
  rw [List.drop_append_eq_append_drop, List.drop_append_eq_append_drop, List.drop_drop]
  congr 1
  · congr 1
    simp only [List.length_append, List.length_drop]
    omega
  · congr 1
    simp only [List.length_append, List.length_drop]
    omega

theorem foldl_add_to_conversation (es : List Msg) :
    ∀ acc : List Msg,
      es.foldl add_to_conversation (takeLast 20 acc) = takeLast 20 (acc ++ es) := by
  induction es with
  | nil =>
    intro acc
    rw [List.foldl_nil, List.append_nil]
  | cons e tl ih =>
    intro acc
    rw [List.foldl_cons, add_to_conversation_eq_takeLast, takeLast_append_takeLast,
        ih (acc ++ [e]), List.append_assoc]
    rfl

/-- C9 (amended): the bounded-history invariant holds for
`SecureUserAgent._add_to_conversation` — after any sequence of appended
entries the stored history is exactly the 20 most recent entries in append
order (so trimming removes only the oldest, never intermediate ones) and
its length never exceeds 20 — while `EnhancedBookingAgent.process_message`
appends without any cap (see the counterexample). -/
theorem C9_amended_bounded_history (entries : List Msg) :
    entries.foldl add_to_conversation [] = takeLast 20 entries ∧
    (entries.foldl add_to_conversation []).length ≤ 20 := by
  have h0 : takeLast 20 ([] : List Msg) = [] := rfl
  have h := foldl_add_to_conversation entries []
  rw [h0, List.nil_append] at h
  constructor
  · exact h
  · rw [h]
    unfold takeLast
    rw [List.length_drop]
    omega

end TailorTalk
